import Mathlib

/-!
Verification of the control/decision flow of src/app/main.py, a
message-triggered video relay bot.  Python strings are modelled as
`List Char`, byte counts as `Nat`, the float division of `bytes_to_mb`
as exact rational division (for sizes below 2^53 bytes Python's float
quotient b / 2**20 is exact, so the rational model agrees with the code
on every comparison that matters), and the external effects of the
handler (replies, uploads, scratch-directory lifecycle) as an explicit
event trace.
-/

namespace VideoBot

/-- The characters of a string literal, the representation used for all
Python strings in this development. -/
def str (s : String) : List Char := s.data

/-- Python str.lower restricted to the ASCII range, which is all the
code's allow-list entries and URL schemes use. -/
def lc (cs : List Char) : List Char := cs.map Char.toLower

/-- Python regex \s and str.strip whitespace, ASCII fragment. -/
def pyIsSpace (c : Char) : Bool :=
  c = ' ' || c = '\t' || c = '\n' || c = '\r' || c = '\x0b' || c = '\x0c'

/-- Python substring containment, `needle in hay`. -/
def containsSub (needle : List Char) : List Char → Bool
  | [] => needle.isEmpty
  | c :: rest => needle.isPrefixOf (c :: rest) || containsSub needle rest

/-- VIDEO_DOMAINS from src/app/main.py:35, the static allow-list of
video-hosting domains (all entries are lowercase in the source). -/
def VIDEO_DOMAINS : List (List Char) :=
  [str "youtube.com", str "m.youtube.com", str "youtu.be", str "youtube-nocookie.com",
   str "tiktok.com", str "vm.tiktok.com",
   str "instagram.com", str "cdninstagram.com",
   str "x.com", str "twitter.com", str "fxtwitter.com", str "vxtwitter.com",
   str "video.twimg.com",
   str "facebook.com", str "m.facebook.com", str "fb.watch",
   str "vimeo.com", str "player.vimeo.com",
   str "twitch.tv", str "clips.twitch.tv",
   str "reddit.com", str "v.redd.it",
   str "streamable.com",
   str "dailymotion.com", str "dai.ly",
   str "drive.google.com"]

/-- host_matches from src/app/main.py:114, parametrized by the hostname
string that `urlparse(url).hostname or ""` extracts (urlparse is Python
standard-library code, outside this repository).  The source lowercases
the host and each allow-list entry and accepts when the host equals an
entry or ends with "." followed by an entry.  NOTE: this function is
defined in the source but never called from the message flow. -/
def host_matches (host : List Char) : Bool :=
  let h := lc host
  VIDEO_DOMAINS.any (fun d => h == lc d || ('.' :: lc d).isSuffixOf h)

/-- The domain gate actually run by handle_message (src/app/main.py:149,
the for/else loop): the message proceeds iff some allow-list entry is a
substring of the lowercased URL. -/
def domain_gate (url : List Char) : Bool :=
  VIDEO_DOMAINS.any (fun d => containsSub d (lc url))

/-- A match of the regex (https?://[^\s]+) (src/app/main.py:30,
case-insensitive) anchored at the start of cs: the scheme prefix is
http:// or https:// up to case, followed by at least one non-whitespace
character; the match extends greedily to the first whitespace.  Returns
the matched substring with its original casing, as re.Match.group(1)
does. -/
def matchHttpAt (cs : List Char) : Option (List Char) :=
  if (str "https://").isPrefixOf (lc cs) then
    let body := (cs.drop 8).takeWhile (fun c => !pyIsSpace c)
    if body.isEmpty then none else some (cs.take 8 ++ body)
  else if (str "http://").isPrefixOf (lc cs) then
    let body := (cs.drop 7).takeWhile (fun c => !pyIsSpace c)
    if body.isEmpty then none else some (cs.take 7 ++ body)
  else none

/-- re.search: try each start position left to right. -/
def searchUrl : List Char → Option (List Char)
  | [] => none
  | c :: cs =>
    match matchHttpAt (c :: cs) with
    | some u => some u
    | none => searchUrl cs

/-- pick_first_url from src/app/main.py:108: None on empty text,
otherwise the leftmost regex match. -/
def pick_first_url (text : List Char) : Option (List Char) :=
  if text.isEmpty then none else searchUrl text

/-- bytes_to_mb from src/app/main.py:60, as exact rational division. -/
def bytes_to_mb (b : ℕ) : ℚ := (b : ℚ) / (1024 * 1024)

/-- The chunk size of the streaming GET, `1 << 14` at
src/app/main.py:96. -/
def CHUNK_SIZE : ℕ := 1 <<< 14

/-- The loop body of http_get_to_file (src/app/main.py:91): iterate over
the response chunks (each modelled by its byte length); an empty chunk
is skipped; otherwise the accumulated size is bumped first, and if it
now exceeds the ceiling the function returns (False, size) before the
chunk is written; otherwise the chunk is written to the file.  The third
component is the sequence of chunks written to out_path, in order. -/
def http_get_loop (maxMB : ℕ) : ℕ → List ℕ → List ℕ → Bool × ℕ × List ℕ
  | size, written, [] => (true, size, written)
  | size, written, c :: rest =>
    if c = 0 then http_get_loop maxMB size written rest
    else
      if bytes_to_mb (size + c) > (maxMB : ℚ) then (false, size + c, written)
      else http_get_loop maxMB (size + c) (written ++ [c]) rest

/-- http_get_to_file from src/app/main.py:91.  `httpOk` is false when
the GET itself fails (raise_for_status or any other exception before the
first chunk), in which case the except branch returns (False, 0) with
nothing written.  NOTE: the source never deletes out_path on the
size-abort path; the chunks already written stay in the file. -/
def http_get_to_file (maxMB : ℕ) (httpOk : Bool) (chunks : List ℕ) :
    Bool × ℕ × List ℕ :=
  if httpOk then http_get_loop maxMB 0 [] chunks else (false, 0, [])

/-- Python str.strip, ASCII whitespace fragment. -/
def strip (cs : List Char) : List Char :=
  ((cs.dropWhile pyIsSpace).reverse.dropWhile pyIsSpace).reverse

/-- Python str.split on a comma: "".split(",") is [""]. -/
def splitComma : List Char → List (List Char)
  | [] => [[]]
  | c :: cs =>
    if c = ',' then [] :: splitComma cs
    else
      match splitComma cs with
      | [] => [[c]]
      | t :: ts => (c :: t) :: ts

/-- Python int() on an already-stripped decimal string with an optional
sign (the only inputs the whitelist parser feeds it; on anything else
the real int() raises at startup, before any message is handled). -/
def pyInt (cs : List Char) : Int :=
  match cs with
  | '-' :: ds => -(ds.foldl (fun a c => a * 10 + (c.toNat - 48)) 0 : ℕ)
  | '+' :: ds => (ds.foldl (fun a c => a * 10 + (c.toNat - 48)) 0 : ℕ)
  | ds => (ds.foldl (fun a c => a * 10 + (c.toNat - 48)) 0 : ℕ)

/-- WHITELIST from src/app/main.py:22: split the WHITELIST environment
variable on commas, keep the entries that are nonempty after stripping,
and parse each as an integer chat id.  The Python set is modelled as the
list of its elements; only membership is ever used. -/
def parse_whitelist (s : List Char) : List Int :=
  ((splitComma s).filter (fun t => !(strip t).isEmpty)).map (fun t => pyInt (strip t))

/-- Python `cid not in WHITELIST`, negated: cid is None when the update
has no effective chat, and None is in no set of integers. -/
def chatMem : Option Int → List Int → Bool
  | none, _ => false
  | some c, wl => wl.contains c

/-- The observable effects of handling one message, in order. -/
inductive Event
  | warnReply          -- "this chat is not allowed" reply
  | logRejected        -- logger.warning about the rejected chat
  | typing             -- send_chat_action upload indicator
  | tmpCreated         -- TemporaryDirectory entered
  | replyDownloadFailed          -- "couldn't download this link" reply
  | replyTooLarge (sizeBytes maxMB : ℕ)
      -- "file is too large" reply, rendering bytes_to_mb sizeBytes and maxMB
  | tryVideo           -- reply_video attempted
  | videoSent          -- reply_video succeeded
  | logVideoFailed (e : List Char)   -- logger.warning with the video error
  | tryDoc             -- reply_document attempted
  | documentSent       -- reply_document succeeded
  | replyUploadFailed (e : List Char)  -- "upload failed" reply with the error text
  | tmpDestroyed       -- TemporaryDirectory exited, scratch files deleted
deriving DecidableEq

/-- Recognizer for the textual upload-failure reply, the third possible
delivery outcome. -/
def isUploadErr : Event → Bool
  | Event.replyUploadFailed _ => true
  | _ => false

/-- What the yt-dlp invocation (asyncio.to_thread(ytdlp_download, ...) at
src/app/main.py:173) did: raised, returned no existing file, or produced
a file whose stat().st_size is the given byte count. -/
inductive BackendResult
  | raised
  | noFile
  | file (size : ℕ)
deriving DecidableEq

/-- One inbound update together with the behavior of the external
systems during its handling: the chat id (none when there is no
effective chat), the whitelist, whether the warning reply raises, the
message text (text or caption, "" if neither), the extractor backend's
outcome, and the exception texts of reply_video / reply_document when
they fail (none = the upload succeeds). -/
structure Env where
  cid : Option Int
  whitelist : List Int
  warnReplyFails : Bool
  text : List Char
  backend : BackendResult
  videoFail : Option (List Char)
  docFail : Option (List Char)

/-- reject_if_not_whitelisted from src/app/main.py:121: deny (true) when
the chat id is missing or not whitelisted; on deny it tries to reply and
then log, swallowing any exception (if the reply raises, the log line is
skipped too); allow (false) has no effect. -/
def reject_if_not_whitelisted (wl : List Int) (cid : Option Int) (warnReplyFails : Bool) :
    Bool × List Event :=
  if chatMem cid wl then (false, [])
  else (true, if warnReplyFails then [] else [Event.warnReply, Event.logRejected])

/-- The delivery tail of handle_message (src/app/main.py:191): try
reply_video; on any exception log it and try reply_document; on any
exception there, reply with a text error carrying that exception's
text. -/
def deliver (videoFail docFail : Option (List Char)) : List Event :=
  match videoFail with
  | none => [Event.tryVideo, Event.videoSent]
  | some e =>
    match docFail with
    | none => [Event.tryVideo, Event.logVideoFailed e, Event.tryDoc, Event.documentSent]
    | some e2 =>
        [Event.tryVideo, Event.logVideoFailed e, Event.tryDoc, Event.replyUploadFailed e2]

/-- handle_message after the download attempt (src/app/main.py:183): a
raised extractor or a missing file leaves downloaded false and replies
that the download failed; otherwise the size gate compares
bytes_to_mb(size) against the ceiling (the too-large reply renders the
measured size and the ceiling) and on admission runs the delivery
tail. -/
def after_download (maxMB : ℕ) (env : Env) : List Event :=
  match env.backend with
  | BackendResult.raised => [Event.replyDownloadFailed]
  | BackendResult.noFile => [Event.replyDownloadFailed]
  | BackendResult.file size =>
    if bytes_to_mb size > (maxMB : ℚ) then [Event.replyTooLarge size maxMB]
    else deliver env.videoFail env.docFail

/-- handle_message from src/app/main.py:140: whitelist gate, URL
extraction (ignore messages without one), the substring domain gate
(silent ignore on failure), then the typing indicator and, inside the
TemporaryDirectory scope, the download attempt, size gate and delivery.
The http_head probe and the URL-extension inspection the source computes
inside the scope are dead code — http_head swallows its own exceptions
and neither value is read afterwards — so they contribute no event.  The
trace ends with the TemporaryDirectory teardown, which Python runs on
every exit path of the with-block. -/
def handle_message (maxMB : ℕ) (env : Env) : List Event :=
  match reject_if_not_whitelisted env.whitelist env.cid env.warnReplyFails with
  | (true, ev) => ev
  | (false, ev) =>
    ev ++
      match pick_first_url env.text with
      | none => []
      | some url =>
        if domain_gate url then
          [Event.typing, Event.tmpCreated] ++ after_download maxMB env ++ [Event.tmpDestroyed]
        else []

/-- A concrete environment: whitelisted chat, URL whose host is
notyoutube.com, extractor raising. -/
def envNotYoutube : Env :=
  { cid := some 1, whitelist := [1], warnReplyFails := false,
    text := str "https://notyoutube.com/watch", backend := BackendResult.raised,
    videoFail := none, docFail := none }

/-- A concrete environment: whitelisted chat, youtu.be link, extractor
producing a file one byte over a 50 MB ceiling. -/
def envOversize : Env :=
  { cid := some 7, whitelist := [7], warnReplyFails := false,
    text := str "check this https://youtu.be/abc123",
    backend := BackendResult.file 52428801,
    videoFail := none, docFail := none }

/-- A concrete environment: whitelisted chat, youtu.be link, extractor
raising. -/
def envRaised : Env :=
  { cid := some 7, whitelist := [7], warnReplyFails := false,
    text := str "https://youtu.be/abc123", backend := BackendResult.raised,
    videoFail := none, docFail := none }

/-- A concrete environment: admissible file, both reply_video and
reply_document raising. -/
def envBothFail : Env :=
  { cid := some 7, whitelist := [7], warnReplyFails := false,
    text := str "https://youtu.be/abc123", backend := BackendResult.file 1000,
    videoFail := some (str "codec rejected"), docFail := some (str "too big for bot") }

/-- A concrete environment: admissible file of exactly the 50 MB
ceiling, uploads succeeding. -/
def envExact : Env :=
  { cid := some 7, whitelist := [7], warnReplyFails := false,
    text := str "https://youtu.be/abc123", backend := BackendResult.file 52428800,
    videoFail := none, docFail := none }

/-- The float comparison bytes_to_mb(b) > M of the source is, for exact
rational arithmetic, the integer comparison M * 2^20 < b. -/
lemma bytes_to_mb_gt_iff (b M : ℕ) : bytes_to_mb b > (M : ℚ) ↔ M * 1048576 < b := by
  rw [bytes_to_mb, gt_iff_lt, lt_div_iff₀ (by norm_num : (0 : ℚ) < 1024 * 1024)]
  rw [show (1024 * 1024 : ℚ) = ((1048576 : ℕ) : ℚ) by norm_num, ← Nat.cast_mul]
  exact_mod_cast Iff.rfl

lemma http_get_loop_nil (M s : ℕ) (w : List ℕ) : http_get_loop M s w [] = (true, s, w) := rfl

/-- The loop step with the size check rephrased over ℕ. -/
lemma http_get_loop_cons (M s : ℕ) (w : List ℕ) (c : ℕ) (rest : List ℕ) :
    http_get_loop M s w (c :: rest) =
      if c = 0 then http_get_loop M s w rest
      else if M * 1048576 < s + c then (false, s + c, w)
      else http_get_loop M (s + c) (w ++ [c]) rest := by
  by_cases hc : c = 0
  · simp [http_get_loop, hc]
  · by_cases h : M * 1048576 < s + c
    · rw [http_get_loop, if_neg hc, if_pos ((bytes_to_mb_gt_iff _ _).mpr h),
        if_neg hc, if_pos h]
    · rw [http_get_loop, if_neg hc, if_neg (fun hq => h ((bytes_to_mb_gt_iff _ _).mp hq)),
        if_neg hc, if_neg h]

/-- containsSub is Python substring containment: the infix relation. -/
lemma containsSub_iff (needle hay : List Char) :
    containsSub needle hay = true ↔ needle <:+: hay := by
  induction hay with
  | nil =>
    simp only [containsSub, List.isEmpty_iff, List.infix_nil]
  | cons c rest ih =>
    simp only [containsSub, Bool.or_eq_true, List.isPrefixOf_iff_prefix, ih,
      List.infix_cons_iff]

/-- When the chat is whitelisted and the URL passes the substring gate,
handle_message runs the scratch-directory scope around the download
stage. -/
lemma handle_message_eq_of_gate (maxMB : ℕ) (env : Env) (url : List Char)
    (hmem : chatMem env.cid env.whitelist = true)
    (hurl : pick_first_url env.text = some url)
    (hgate : domain_gate url = true) :
    handle_message maxMB env =
      [Event.typing, Event.tmpCreated] ++ after_download maxMB env ++ [Event.tmpDestroyed] := by
  unfold handle_message reject_if_not_whitelisted
  rw [hmem]
  simp [hurl, hgate]

/-- Claim C1, corrected: the gate that actually decides whether a
message proceeds (the for/else loop of handle_message) is the raw
substring test — some allow-list entry occurs inside the lowercased URL
— not a hostname test.  The separate host_matches function, which
handle_message never calls, is the one with the claimed semantics: it
accepts exactly when the lowercased hostname equals an allow-list entry
or ends with "." followed by one. -/
theorem C1_domain_gate_semantics (url host : List Char) :
    (domain_gate url = true ↔ ∃ d ∈ VIDEO_DOMAINS, d <:+: lc url) ∧
    (host_matches host = true ↔
      ∃ d ∈ VIDEO_DOMAINS, lc host = lc d ∨ ('.' :: lc d) <:+ lc host) := by
  constructor
  · simp only [domain_gate, List.any_eq_true, containsSub_iff]
  · simp only [host_matches, List.any_eq_true, Bool.or_eq_true, beq_iff_eq,
      List.isSuffixOf_iff_suffix]

/-- Claim C1's counterexample: the URL https://notyoutube.com/watch
passes the gate and proceeds all the way to a download attempt (the
trace reaches the scratch directory and the extractor), even though its
hostname notyoutube.com fails the exact/dot-suffix test; likewise an
allow-listed name appearing only in the query string passes the gate. -/
theorem C1_counterexample :
    host_matches (str "notyoutube.com") = false ∧
    domain_gate (str "https://notyoutube.com/watch") = true ∧
    domain_gate (str "https://evil.example/?share=youtube.com") = true ∧
    handle_message 50 envNotYoutube =
      [Event.typing, Event.tmpCreated, Event.replyDownloadFailed, Event.tmpDestroyed] := by
  refine ⟨by decide, by decide, by decide, ?_⟩
  rw [handle_message_eq_of_gate 50 envNotYoutube (str "https://notyoutube.com/watch")
    (by decide) (by decide) (by decide)]
  rfl

/-- Claim C7: the whitelist check denies exactly the updates whose chat
id is absent or outside the whitelist; denial replies and logs when the
reply goes through, swallows the failure (skipping the log line) when it
does not, and reports deny either way; an allowed chat produces no
effect at all.  The function is total: no input makes it raise. -/
theorem C7_reject_policy (wl : List Int) (cid : Option Int) (rf : Bool) :
    ((reject_if_not_whitelisted wl cid rf).1 = true ↔ chatMem cid wl = false) ∧
    (chatMem cid wl = true → reject_if_not_whitelisted wl cid rf = (false, [])) ∧
    (chatMem cid wl = false → rf = false →
      reject_if_not_whitelisted wl cid rf = (true, [Event.warnReply, Event.logRejected])) ∧
    (chatMem cid wl = false → rf = true →
      reject_if_not_whitelisted wl cid rf = (true, [])) := by
  unfold reject_if_not_whitelisted
  by_cases h : chatMem cid wl = true
  · simp [h]
  · simp only [Bool.not_eq_true] at h
    cases rf <;> simp [h]

/-- Claim C9: an unset or empty WHITELIST variable parses to the empty
allow-list, and with an empty allow-list the check denies every
conversation, the ones with no effective chat id included; there is no
allow-all default. -/
theorem C9_empty_whitelist_denies_all :
    parse_whitelist (str "") = [] ∧
    ∀ (cid : Option Int) (rf : Bool),
      (reject_if_not_whitelisted [] cid rf).1 = true := by
  refine ⟨by decide, ?_⟩
  intro cid rf
  cases cid <;> simp [reject_if_not_whitelisted, chatMem]

lemma deliver_ok (df : Option (List Char)) :
    deliver none df = [Event.tryVideo, Event.videoSent] := rfl

lemma deliver_video_failed (e : List Char) :
    deliver (some e) none =
      [Event.tryVideo, Event.logVideoFailed e, Event.tryDoc, Event.documentSent] := rfl

lemma deliver_both_failed (e e2 : List Char) :
    deliver (some e) (some e2) =
      [Event.tryVideo, Event.logVideoFailed e, Event.tryDoc, Event.replyUploadFailed e2] := rfl

lemma after_download_raised (maxMB : ℕ) (env : Env)
    (hb : env.backend = BackendResult.raised) :
    after_download maxMB env = [Event.replyDownloadFailed] := by
  unfold after_download
  rw [hb]

lemma after_download_noFile (maxMB : ℕ) (env : Env)
    (hb : env.backend = BackendResult.noFile) :
    after_download maxMB env = [Event.replyDownloadFailed] := by
  unfold after_download
  rw [hb]

lemma after_download_file (maxMB : ℕ) (env : Env) (size : ℕ)
    (hb : env.backend = BackendResult.file size) :
    after_download maxMB env =
      if bytes_to_mb size > (maxMB : ℚ) then [Event.replyTooLarge size maxMB]
      else deliver env.videoFail env.docFail := by
  unfold after_download
  rw [hb]

/-- Claim C2: when the download stage produced a file whose size in MB
exceeds the ceiling, the handler sends the too-large reply carrying the
measured byte size and the ceiling, and neither upload is ever
attempted — a SizeExceeded outcome is never followed by a delivery. -/
theorem C2_size_exceeded_never_delivered (maxMB : ℕ) (env : Env) (url : List Char) (size : ℕ)
    (hmem : chatMem env.cid env.whitelist = true)
    (hurl : pick_first_url env.text = some url)
    (hgate : domain_gate url = true)
    (hb : env.backend = BackendResult.file size)
    (hgt : bytes_to_mb size > (maxMB : ℚ)) :
    handle_message maxMB env =
      [Event.typing, Event.tmpCreated, Event.replyTooLarge size maxMB, Event.tmpDestroyed] ∧
    Event.tryVideo ∉ handle_message maxMB env ∧
    Event.videoSent ∉ handle_message maxMB env ∧
    Event.tryDoc ∉ handle_message maxMB env ∧
    Event.documentSent ∉ handle_message maxMB env := by
  have h := handle_message_eq_of_gate maxMB env url hmem hurl hgate
  have h2 : after_download maxMB env = [Event.replyTooLarge size maxMB] := by
    unfold after_download
    rw [hb]
    simp [hgt]
  rw [h2] at h
  simp only [List.append_assoc, List.cons_append, List.nil_append] at h
  refine ⟨h, ?_, ?_, ?_, ?_⟩ <;> rw [h] <;> simp

/-- Claim C2's witness: a 50 MB + 1 byte file against a 50 MB ceiling. -/
theorem C2_witness :
    handle_message 50 envOversize =
      [Event.typing, Event.tmpCreated, Event.replyTooLarge 52428801 50, Event.tmpDestroyed] :=
  (C2_size_exceeded_never_delivered 50 envOversize (str "https://youtu.be/abc123") 52428801
    (by decide) (by decide) (by decide) rfl
    ((bytes_to_mb_gt_iff 52428801 50).mpr (by norm_num))).1

/-- Claim C6: an exception raised inside the extraction-backend call is
caught at the point of use and becomes the download-failed reply; the
handler still runs to completion normally (the trace is total and closes
its scratch scope), so nothing propagates out of the message's
handling. -/
theorem C6_extraction_error_contained (maxMB : ℕ) (env : Env) (url : List Char)
    (hmem : chatMem env.cid env.whitelist = true)
    (hurl : pick_first_url env.text = some url)
    (hgate : domain_gate url = true)
    (hb : env.backend = BackendResult.raised) :
    handle_message maxMB env =
      [Event.typing, Event.tmpCreated, Event.replyDownloadFailed, Event.tmpDestroyed] := by
  have h := handle_message_eq_of_gate maxMB env url hmem hurl hgate
  have h2 : after_download maxMB env = [Event.replyDownloadFailed] := by
    unfold after_download
    rw [hb]
  rw [h2] at h
  simpa using h

/-- Claim C6's witness. -/
theorem C6_witness :
    handle_message 50 envRaised =
      [Event.typing, Event.tmpCreated, Event.replyDownloadFailed, Event.tmpDestroyed] :=
  C6_extraction_error_contained 50 envRaised (str "https://youtu.be/abc123")
    (by decide) (by decide) (by decide) rfl

/-- Claim C4: once a size-admissible file reaches the delivery stage,
the video upload is attempted first; a document upload happens only
after the video upload raised, and the textual error reply — carrying
the failing upload's error text — only after both raised; exactly one of
the three outcomes occurs. -/
theorem C4_delivery_order_and_fallback (maxMB : ℕ) (env : Env) (url : List Char) (size : ℕ)
    (hmem : chatMem env.cid env.whitelist = true)
    (hurl : pick_first_url env.text = some url)
    (hgate : domain_gate url = true)
    (hb : env.backend = BackendResult.file size)
    (hle : ¬ bytes_to_mb size > (maxMB : ℚ)) :
    (env.videoFail = none →
      handle_message maxMB env =
        [Event.typing, Event.tmpCreated, Event.tryVideo, Event.videoSent,
         Event.tmpDestroyed]) ∧
    (∀ e, env.videoFail = some e → env.docFail = none →
      handle_message maxMB env =
        [Event.typing, Event.tmpCreated, Event.tryVideo, Event.logVideoFailed e,
         Event.tryDoc, Event.documentSent, Event.tmpDestroyed]) ∧
    (∀ e e2, env.videoFail = some e → env.docFail = some e2 →
      handle_message maxMB env =
        [Event.typing, Event.tmpCreated, Event.tryVideo, Event.logVideoFailed e,
         Event.tryDoc, Event.replyUploadFailed e2, Event.tmpDestroyed]) ∧
    ((handle_message maxMB env).count Event.videoSent
      + (handle_message maxMB env).count Event.documentSent
      + (handle_message maxMB env).countP isUploadErr = 1) := by
  have h := handle_message_eq_of_gate maxMB env url hmem hurl hgate
  have h2 : after_download maxMB env = deliver env.videoFail env.docFail := by
    rw [after_download_file maxMB env size hb, if_neg hle]
  rw [h2] at h
  refine ⟨?_, ?_, ?_, ?_⟩
  · intro hv
    rw [h, hv, deliver_ok]
    rfl
  · intro e hv hd
    rw [h, hv, hd, deliver_video_failed]
    rfl
  · intro e e2 hv hd
    rw [h, hv, hd, deliver_both_failed]
    rfl
  · rw [h]
    rcases env.videoFail with _ | e
    · rw [deliver_ok]
      simp [List.count_append, List.count_cons, List.countP_append, List.countP_cons,
        isUploadErr]
    · rcases env.docFail with _ | e2
      · rw [deliver_video_failed]
        simp [List.count_append, List.count_cons, List.countP_append, List.countP_cons,
          isUploadErr]
      · rw [deliver_both_failed]
        simp [List.count_append, List.count_cons, List.countP_append, List.countP_cons,
          isUploadErr]

/-- Claim C4's witness: both uploads fail, so the single outcome is the
textual error reply carrying the document upload's error text. -/
theorem C4_witness :
    handle_message 50 envBothFail =
      [Event.typing, Event.tmpCreated, Event.tryVideo,
       Event.logVideoFailed (str "codec rejected"), Event.tryDoc,
       Event.replyUploadFailed (str "too big for bot"), Event.tmpDestroyed] :=
  (C4_delivery_order_and_fallback 50 envBothFail (str "https://youtu.be/abc123") 1000
    (by decide) (by decide) (by decide) rfl
    (fun hq => by simpa using (bytes_to_mb_gt_iff 1000 50).mp hq)).2.2.1
    (str "codec rejected") (str "too big for bot") rfl rfl

/-- Events of the download/size/delivery stage never touch the scratch
directory lifecycle. -/
lemma after_download_no_tmp (maxMB : ℕ) (env : Env) :
    Event.tmpCreated ∉ after_download maxMB env ∧
    Event.tmpDestroyed ∉ after_download maxMB env := by
  rcases hb : env.backend with _ | _ | size
  · rw [after_download_raised maxMB env hb]
    simp
  · rw [after_download_noFile maxMB env hb]
    simp
  · rw [after_download_file maxMB env size hb]
    by_cases h : bytes_to_mb size > (maxMB : ℚ)
    · simp [h]
    · rw [if_neg h]
      rcases env.videoFail with _ | e
      · rw [deliver_ok]
        simp
      · rcases env.docFail with _ | e2
        · rw [deliver_video_failed]
          simp
        · rw [deliver_both_failed]
          simp

/-- Claim C8: on every path of the handler the scratch directory is
destroyed exactly as often as it is created, and whenever one was
created the very last event of the handling is its teardown — no
downloaded file outlives the message's handling, since the extractor
writes only under that directory. -/
theorem C8_scratch_dir_always_released (maxMB : ℕ) (env : Env) :
    ((handle_message maxMB env).count Event.tmpCreated
        = (handle_message maxMB env).count Event.tmpDestroyed) ∧
    (Event.tmpCreated ∈ handle_message maxMB env →
      (handle_message maxMB env).getLast? = some Event.tmpDestroyed) := by
  have hno := after_download_no_tmp maxMB env
  unfold handle_message reject_if_not_whitelisted
  by_cases hmem : chatMem env.cid env.whitelist
  · rw [if_pos hmem]
    simp only [List.nil_append]
    cases hurl : pick_first_url env.text with
    | none => simp
    | some url =>
      by_cases hgate : domain_gate url
      · simp only [hgate, if_true]
        constructor
        · simp [List.count_append, List.count_cons,
            List.count_eq_zero.mpr hno.1, List.count_eq_zero.mpr hno.2]
        · intro _
          rw [show [Event.typing, Event.tmpCreated] ++ after_download maxMB env
                ++ [Event.tmpDestroyed]
              = ([Event.typing, Event.tmpCreated] ++ after_download maxMB env)
                ++ [Event.tmpDestroyed] by rw [List.append_assoc]]
          exact List.getLast?_concat _
      · simp [hgate]
  · rw [if_neg hmem]
    cases env.warnReplyFails <;> simp

/-- Claim C10: both size comparisons are strict.  A byte count of
exactly MAX_SIZE_MB * 1024 * 1024 does not trip the post-download gate —
the handler proceeds to the delivery stage — and the streaming
downloader writes a chunk that lands the cumulative size exactly on the
ceiling instead of aborting on it. -/
theorem C10_ceiling_comparisons_strict (M : ℕ) (env : Env) :
    (¬ bytes_to_mb (M * 1048576) > (M : ℚ)) ∧
    (M ≠ 0 → http_get_to_file M true [M * 1048576]
        = (true, M * 1048576, [M * 1048576])) ∧
    (chatMem env.cid env.whitelist = true →
      ∀ url, pick_first_url env.text = some url → domain_gate url = true →
        env.backend = BackendResult.file (M * 1048576) →
        handle_message M env =
          [Event.typing, Event.tmpCreated] ++ deliver env.videoFail env.docFail
            ++ [Event.tmpDestroyed]) := by
  have hnot : ¬ bytes_to_mb (M * 1048576) > (M : ℚ) := by
    rw [bytes_to_mb_gt_iff]
    omega
  refine ⟨hnot, ?_, ?_⟩
  · intro hM
    have hc : M * 1048576 ≠ 0 := by positivity
    rw [http_get_to_file, if_pos rfl, http_get_loop_cons, if_neg hc,
      if_neg (by omega : ¬ M * 1048576 < 0 + M * 1048576), http_get_loop_nil]
    simp
  · intro hmem url hurl hgate hb
    have h := handle_message_eq_of_gate M env url hmem hurl hgate
    rw [after_download_file M env (M * 1048576) hb, if_neg hnot] at h
    exact h

/-- Full characterization of the streaming loop from any intermediate
state: within the ceiling it writes every nonempty chunk and reports
success with the total; once the running total would cross the ceiling
it returns failure with the accumulated count, having written exactly
the chunks before the crossing one. -/
lemma http_get_loop_run (M : ℕ) :
    ∀ (chunks : List ℕ) (s : ℕ) (w : List ℕ),
      (s + chunks.sum ≤ M * 1048576 →
        http_get_loop M s w chunks
          = (true, s + chunks.sum, w ++ chunks.filter (fun c => c != 0))) ∧
      (s ≤ M * 1048576 → M * 1048576 < s + chunks.sum →
        ∃ pre c rest,
          chunks.filter (fun c => c != 0) = pre ++ c :: rest ∧
          s + pre.sum ≤ M * 1048576 ∧
          M * 1048576 < s + pre.sum + c ∧
          http_get_loop M s w chunks = (false, s + pre.sum + c, w ++ pre)) := by
  intro chunks
  induction chunks with
  | nil =>
    intro s w
    refine ⟨fun _ => by simp [http_get_loop_nil], fun hs h => ?_⟩
    simp only [List.sum_nil, Nat.add_zero] at h
    omega
  | cons c rest ih =>
    intro s w
    by_cases hc : c = 0
    · subst hc
      have hstep : http_get_loop M s w (0 :: rest) = http_get_loop M s w rest := by
        rw [http_get_loop_cons, if_pos rfl]
      have hfil : (0 :: rest).filter (fun x => x != 0) = rest.filter (fun x => x != 0) := by
        simp
      constructor
      · intro h
        rw [hstep, hfil]
        have h2 := (ih s w).1 (by simpa using h)
        simpa using h2
      · intro hs h
        rw [hstep, hfil]
        have h2 := (ih s w).2 hs (by simpa using h)
        simpa using h2
    · have hstep : http_get_loop M s w (c :: rest)
          = if M * 1048576 < s + c then (false, s + c, w)
            else http_get_loop M (s + c) (w ++ [c]) rest := by
        rw [http_get_loop_cons, if_neg hc]
      have hfil : (c :: rest).filter (fun x => x != 0)
          = c :: rest.filter (fun x => x != 0) := by
        simp [hc]
      by_cases hover : M * 1048576 < s + c
      · constructor
        · intro h
          exfalso
          simp only [List.sum_cons] at h
          omega
        · intro hs h
          refine ⟨[], c, rest.filter (fun x => x != 0), by simpa using hfil, by simpa using hs,
            by simpa using hover, ?_⟩
          rw [hstep, if_pos hover]
          simp
      · rw [if_neg hover] at hstep
        constructor
        · intro h
          simp only [List.sum_cons] at h
          rw [hstep, (ih (s + c) (w ++ [c])).1 (by omega), hfil]
          simp only [List.sum_cons, List.append_assoc, List.cons_append, List.nil_append]
          rw [Nat.add_assoc]
        · intro hs h
          simp only [List.sum_cons] at h
          obtain ⟨pre, c', rest'', hfil2, hle, hlt, hloop⟩ :=
            (ih (s + c) (w ++ [c])).2 (by omega) (by omega)
          refine ⟨c :: pre, c', rest'', ?_, ?_, ?_, ?_⟩
          · rw [hfil, hfil2]
            rfl
          · simp only [List.sum_cons]
            omega
          · simp only [List.sum_cons]
            omega
          · rw [hstep, hloop]
            simp only [List.sum_cons, List.append_assoc, List.cons_append, List.nil_append]
            rw [Nat.add_assoc s c pre.sum]

/-- Claim C3, corrected: the streaming downloader reads 16KB chunks,
accumulates the byte count chunk by chunk, and the moment the cumulative
size crosses the ceiling it stops writing — the crossing chunk and every
later chunk are never written — and returns failure with the accumulated
count.  (The source does NOT delete the partial data: the chunks already
written stay in out_path, whose cleanup is left to the caller's scratch
directory.) -/
theorem C3_streaming_abort_semantics (M : ℕ) (chunks : List ℕ) :
    CHUNK_SIZE = 16384 ∧
    ((http_get_to_file M true chunks).1 = true ↔ chunks.sum ≤ M * 1048576) ∧
    (chunks.sum ≤ M * 1048576 →
      http_get_to_file M true chunks
        = (true, chunks.sum, chunks.filter (fun c => c != 0))) ∧
    (M * 1048576 < chunks.sum →
      ∃ pre c rest,
        chunks.filter (fun c => c != 0) = pre ++ c :: rest ∧
        pre.sum ≤ M * 1048576 ∧
        M * 1048576 < pre.sum + c ∧
        http_get_to_file M true chunks = (false, pre.sum + c, pre)) := by
  have hto : http_get_to_file M true chunks = http_get_loop M 0 [] chunks := by
    rw [http_get_to_file, if_pos rfl]
  have hrun := http_get_loop_run M chunks 0 []
  have hok : chunks.sum ≤ M * 1048576 →
      http_get_to_file M true chunks
        = (true, chunks.sum, chunks.filter (fun c => c != 0)) := by
    intro h
    rw [hto, hrun.1 (by simpa using h)]
    simp
  have hfail : M * 1048576 < chunks.sum →
      ∃ pre c rest,
        chunks.filter (fun c => c != 0) = pre ++ c :: rest ∧
        pre.sum ≤ M * 1048576 ∧
        M * 1048576 < pre.sum + c ∧
        http_get_to_file M true chunks = (false, pre.sum + c, pre) := by
    intro h
    obtain ⟨pre, c, rest, hfil, hle, hlt, hloop⟩ :=
      hrun.2 (Nat.zero_le _) (by simpa using h)
    refine ⟨pre, c, rest, hfil, by simpa using hle, by simpa using hlt, ?_⟩
    rw [hto, hloop]
    simp
  refine ⟨by decide, ?_, hok, hfail⟩
  by_cases hsum : chunks.sum ≤ M * 1048576
  · rw [hok hsum]
    simpa using hsum
  · obtain ⟨pre, c, rest, _, _, _, hres⟩ := hfail (by omega)
    rw [hres]
    constructor
    · intro hfalse
      exact absurd hfalse (by simp)
    · intro h
      omega

/-- Claim C3's counterexample to "deletes the partial data": with a 1 MB
ceiling, a 16KB chunk followed by a 1MB chunk makes the downloader abort
on the second chunk and return failure, yet the first chunk is still in
the file — nothing was deleted. -/
theorem C3_counterexample :
    (http_get_to_file 1 true [16384, 1048576]).1 = false ∧
    (http_get_to_file 1 true [16384, 1048576]).2.2 = [16384] := by
  have h : http_get_to_file 1 true [16384, 1048576] = (false, 1064960, [16384]) := by
    simp [http_get_to_file, http_get_loop_cons, http_get_loop_nil]
  exact ⟨by rw [h], by rw [h]⟩

lemma matchHttpAt_nil : matchHttpAt [] = none := rfl

/-- re.search finds nothing exactly when no start position matches. -/
lemma searchUrl_none_iff (cs : List Char) :
    searchUrl cs = none ↔ ∀ i, matchHttpAt (cs.drop i) = none := by
  induction cs with
  | nil =>
    simp [searchUrl, matchHttpAt_nil]
  | cons c rest ih =>
    cases hm : matchHttpAt (c :: rest) with
    | some u =>
      have hs : searchUrl (c :: rest) = some u := by
        simp only [searchUrl, hm]
      rw [hs]
      constructor
      · intro h
        cases h
      · intro h
        have h0 := h 0
        rw [List.drop_zero, hm] at h0
        cases h0
    | none =>
      have hs : searchUrl (c :: rest) = searchUrl rest := by
        simp only [searchUrl, hm]
      rw [hs, ih]
      constructor
      · intro h i
        cases i with
        | zero => simpa using hm
        | succ j => simpa using h j
      · intro h j
        simpa using h (j + 1)

/-- re.search returns u exactly when u matches at some position and no
earlier position matches at all: the leftmost-match rule. -/
lemma searchUrl_some_iff (cs u : List Char) :
    searchUrl cs = some u ↔
      ∃ i, matchHttpAt (cs.drop i) = some u ∧
        ∀ j < i, matchHttpAt (cs.drop j) = none := by
  induction cs with
  | nil =>
    constructor
    · intro h
      cases h
    · rintro ⟨i, hi, _⟩
      rw [List.drop_nil, matchHttpAt_nil] at hi
      cases hi
  | cons c rest ih =>
    cases hm : matchHttpAt (c :: rest) with
    | some v =>
      have hs : searchUrl (c :: rest) = some v := by
        simp only [searchUrl, hm]
      rw [hs]
      constructor
      · intro h
        refine ⟨0, ?_, ?_⟩
        · rw [List.drop_zero, hm, h]
        · intro j hj
          omega
      · rintro ⟨i, hi, hless⟩
        cases i with
        | zero =>
          rw [List.drop_zero, hm] at hi
          exact hi
        | succ k =>
          have h0 := hless 0 (Nat.succ_pos k)
          rw [List.drop_zero, hm] at h0
          cases h0
    | none =>
      have hs : searchUrl (c :: rest) = searchUrl rest := by
        simp only [searchUrl, hm]
      rw [hs, ih]
      constructor
      · rintro ⟨i, hi, hless⟩
        refine ⟨i + 1, by simpa using hi, ?_⟩
        intro j hj
        cases j with
        | zero => simpa using hm
        | succ k => simpa using hless k (by omega)
      · rintro ⟨i, hi, hless⟩
        cases i with
        | zero =>
          rw [List.drop_zero, hm] at hi
          cases hi
        | succ k =>
          refine ⟨k, by simpa using hi, ?_⟩
          intro j hj
          simpa using hless (j + 1) (by omega)

/-- Claim C5: pick_first_url returns None on empty text; it returns None
exactly when no position of the text starts a (case-insensitive) match
of https?:// followed by at least one non-whitespace character; and it
returns u exactly when u is the match at the leftmost matching position
— in particular, with several URLs present only the first is returned. -/
theorem C5_first_url_leftmost (text u : List Char) :
    pick_first_url [] = none ∧
    (pick_first_url text = none ↔ ∀ i, matchHttpAt (text.drop i) = none) ∧
    (pick_first_url text = some u ↔
      ∃ i, matchHttpAt (text.drop i) = some u ∧
        ∀ j < i, matchHttpAt (text.drop j) = none) := by
  have hpe : pick_first_url text = searchUrl text := by
    cases text with
    | nil => rfl
    | cons c cs => rfl
  exact ⟨rfl, by rw [hpe]; exact searchUrl_none_iff text,
    by rw [hpe]; exact searchUrl_some_iff text u⟩

end VideoBot
